import Mathlib

/-!
Verification development for the `aptpip` dependency-resolution script
(`src/aptpip.py`).  The script walks a package dependency graph, asking an
apt oracle first (`apt_package_exists`) and falling back to the PyPI
registry (`get_dependencies`), accumulating an apt install set and a pip
install set, with a visited set guaranteeing termination.

The embedding below translates the relevant functions one by one:

* `parseDep` / `cleanDeps` — the regex loop in `get_dependencies`
  (lines 67-73) that turns raw `requires_dist` strings into
  `(base name, optional extras)` pairs;
* `get_dependencies` — lines 40-82, over a small JSON model, with the
  network/decoding outcomes made explicit (the HTTP status code is carried
  in the model but, like the source, never consulted);
* `is_dev_dependency` — lines 84-89;
* `apt_package_exists` / `findPackageLine` — lines 91-107, over an abstract
  probe returning the `apt-cache show` result for the synthesized candidate
  name;
* `install_dependencies_recursive` — lines 109-144, written against an
  abstract environment giving, per package name, the result of
  `apt_package_exists` and of `get_dependencies`; recursion is made total
  with a fuel parameter (fuel exhaustion returns the state unchanged, and
  the stabilization theorem shows enough fuel makes the result
  fuel-independent).  The state carries the two target sets and the visited
  set, plus three call logs (`visits`, `oracleCalls`, `registryCalls`)
  recording the side effects the claims speak about.
-/

namespace Aptpip

/-! ## Python string helpers -/

/-- Membership test for the regex character class `[a-zA-Z0-9-_]` used in
`get_dependencies` (line 69) and `install_from_requirements` (line 154). -/
def isNameChar (c : Char) : Bool :=
  ('a' ≤ c && c ≤ 'z') || ('A' ≤ c && c ≤ 'Z') || ('0' ≤ c && c ≤ '9') ||
    c = '-' || c = '_'

/-- The characters Python's regex `\S` rejects (`str.isspace` set, ASCII part). -/
def isPySpace (c : Char) : Bool :=
  c = ' ' || c = '\t' || c = '\n' || c = '\r' || c = '\x0b' || c = '\x0c'

/-- Python `str.lower()` restricted to its ASCII behaviour, which is all the
source exercises. -/
def pyLower (s : String) : String :=
  String.mk (s.data.map Char.toLower)

/-- Substring scan: `needle` occurs contiguously inside `hay`.  Models the
Python expression `term in dependency_string.lower()`. -/
def strContainsSub (needle : List Char) : List Char → Bool
  | [] => needle.isEmpty
  | c :: cs => needle.isPrefixOf (c :: cs) || strContainsSub needle cs

/-! ## Dependency-spec parsing (`get_dependencies`, lines 67-73)

The source applies `re.match(r"([a-zA-Z0-9-_]+)(?:\[(.*?)\])?(?:;.*)?", dep)`
to each raw dependency string.  `re.match` anchors at the start only, every
group after the first is optional, and `.` does not match a newline, so the
match succeeds exactly when the string starts with a name character; group 1
is the longest name-character prefix; group 2 is present exactly when the
name is immediately followed by `[`, the lazy body running to the first `]`
with no newline before it. -/

/-- The lazy `(.*?)\]` part of the extras group: the characters up to the
first `]`, failing when a newline or the end of the string comes first. -/
def extrasScan : List Char → Option (List Char)
  | [] => none
  | c :: cs =>
    if c = ']' then some []
    else if c = '\n' then none
    else (extrasScan cs).map (fun r => c :: r)

/-- One iteration of the cleaning loop: the regex match on a raw dependency
string, returning `(group 1, group 2)` on success. -/
def parseDep (dep : String) : Option (String × Option String) :=
  match dep.data.span isNameChar with
  | ([], _) => none
  | (nameChars, rest) =>
    let extras : Option String :=
      match rest with
      | '[' :: r => (extrasScan r).map String.mk
      | _ => none
    some (String.mk nameChars, extras)

/-- The full cleaning loop (lines 67-73): parse every raw string, silently
skipping the ones the regex rejects. -/
def cleanDeps (deps : List String) : List (String × Option String) :=
  deps.filterMap parseDep

/-! ## JSON model and `get_dependencies` (lines 40-82) -/

/-- The JSON values `requests.Response.json()` can produce (numbers
collapsed to integers; no claim depends on floats). -/
inductive Json where
  | null : Json
  | bool (b : Bool) : Json
  | num (n : Int) : Json
  | str (s : String) : Json
  | arr (elems : List Json) : Json
  | obj (fields : List (String × Json)) : Json

/-- Python truthiness of a decoded JSON value, for `if not data:` (line 57). -/
def pyTruthy : Json → Bool
  | .null => false
  | .bool b => b
  | .num n => n != 0
  | .str s => !s.data.isEmpty
  | .arr l => !l.isEmpty
  | .obj l => !l.isEmpty

/-- What `requests.get(url)` followed by `.json()` can give the code: a
transport failure (`requests.exceptions.RequestException`), or a response
carrying a status code together with either a JSON decoding failure
(`json.JSONDecodeError`) or the decoded value.  The source never reads the
status code; it is kept so claims about non-2xx responses are statable. -/
inductive HttpResult where
  | netErr : HttpResult
  | response (status : Nat) (body : Except Unit Json) : HttpResult

/-- String extraction used to model `re.match` raising `TypeError` on a
non-string element of `requires_dist`. -/
def asStr : Json → Option String
  | .str s => some s
  | _ => none

/-- Whether a JSON value is a string. -/
def isStrJson : Json → Bool
  | .str _ => true
  | _ => false

/-- `get_dependencies` (lines 40-82) as a function of the observable HTTP
outcome.  Branches, in source order:

* request exception or undecodable body → `None` (lines 50-55);
* falsy decoded value → `None` (lines 57-59);
* `data.get('info', {}).get('requires_dist')`: a non-dict `data` or a
  non-dict `info` raises `AttributeError`, caught by the outer
  `except Exception` (line 77) → `None`;
* missing or `null` `requires_dist` → `[]` (lines 63-65);
* a list of strings → the cleaned pairs; a list with a non-string element
  makes `re.match` raise `TypeError`, caught → `None`; iterating a string
  yields its characters, iterating a dict yields its keys; iterating a
  number or boolean raises `TypeError`, caught → `None`. -/
def get_dependencies (resp : HttpResult) : Option (List (String × Option String)) :=
  match resp with
  | .netErr => none
  | .response _ (.error _) => none
  | .response _ (.ok data) =>
    if !pyTruthy data then none
    else
      match data with
      | .obj fields =>
        match List.lookup "info" fields with
        | none => some []
        | some (.obj infoFields) =>
          match List.lookup "requires_dist" infoFields with
          | none => some []
          | some .null => some []
          | some (.arr elems) =>
            if elems.all isStrJson then some (cleanDeps (elems.filterMap asStr))
            else none
          | some (.str s) => some (cleanDeps (s.data.map (fun c => String.mk [c])))
          | some (.obj f2) => some (cleanDeps (f2.map Prod.fst))
          | some _ => none
        | some _ => none
      | _ => none

/-! ## `is_dev_dependency` (lines 84-89) -/

/-- `is_dev_dependency`: case-insensitive substring match of the four dev
terms against the string it is given.  In the walk (line 140) it is applied
to the parsed base name, not to the raw spec. -/
def is_dev_dependency (dependency_string : String) : Bool :=
  ["test", "dev", "devel", "docs"].any
    (fun term => strContainsSub term.data (pyLower dependency_string).data)

/-! ## `apt_package_exists` (lines 91-107) -/

/-- Result of `subprocess.run` as `run_command` reports it: `none` models
`run_command` returning `None` (command not found); otherwise the return
code and captured stdout. -/
structure CmdResult where
  returncode : Int
  stdout : String

/-- The candidate name probed by `apt-cache show` (line 98): the fixed
prefix plus the lowercased package name. -/
def apt_probe_candidate (package_name_with_extras : String) : String :=
  "python3-" ++ pyLower package_name_with_extras

/-- Split on newline characters, for the `re.MULTILINE` line structure. -/
def splitLinesAux : List Char → List Char → List (List Char)
  | [], acc => [acc.reverse]
  | c :: cs, acc =>
    if c = '\n' then acc.reverse :: splitLinesAux cs []
    else splitLinesAux cs (c :: acc)

/-- Match of one line against `^Package: (\S+)$`: the literal prefix, then a
nonempty run of non-whitespace characters reaching the end of the line. -/
def packageLineName (line : List Char) : Option String :=
  if ("Package: ".data).isPrefixOf line then
    let rest := line.drop ("Package: ".data).length
    if !rest.isEmpty && rest.all (fun c => !isPySpace c) then some (String.mk rest)
    else none
  else none

/-- `re.search(r"^Package: (\S+)$", output, re.MULTILINE)` (line 102): the
first line of the output matching the pattern. -/
def findPackageLine (output : String) : Option String :=
  (splitLinesAux output.data []).findSome? packageLineName

/-- `apt_package_exists` (lines 91-107), over an abstract `probe` giving the
`apt-cache show` outcome for the candidate name.  Succeeds with the
canonical name from the `Package:` line exactly when the command ran,
returned 0, and such a line exists. -/
def apt_package_exists (probe : String → Option CmdResult)
    (package_name_with_extras : String) : Option String :=
  match probe (apt_probe_candidate package_name_with_extras) with
  | none => none
  | some result =>
    if result.returncode = 0 then findPackageLine result.stdout else none

/-- Python truthiness of the `apt_package_exists` result, for the test
`if apt_package_exists(package_name):` (line 129). -/
def pyTruthyStr : Option String → Bool
  | none => false
  | some s => !s.data.isEmpty

/-! ## The resolver (`install_dependencies_recursive`, lines 109-144) -/

/-- The mutable state threaded through the recursion: the visited set
`processed`, the two target sets, and three logs recording the observable
events — the per-visit diagnostic line (line 126), the
`apt_package_exists` calls (line 129) and the `get_dependencies` calls
(line 133), each in call order. -/
structure St where
  processed : Finset String
  apt_packages : Finset String
  pip_packages : Finset (String × Option String)
  visits : List String
  oracleCalls : List String
  registryCalls : List String
deriving DecidableEq

/-- The two collaborators, abstracted at their call boundary: per package
name, the value `apt_package_exists(package_name)` returns, and the value
`get_dependencies(package_name)` returns. -/
structure Env where
  oracle : String → Option String
  fetch : String → Option (List (String × Option String))

/-- Lines 123-127 and the issuing of the oracle probe at line 129: insert
the name into `processed`, log the diagnostic visit line, log the
`apt_package_exists` call. -/
def visitMark (package_name : String) (s : St) : St :=
  { s with
    processed := insert package_name s.processed,
    visits := s.visits ++ [package_name],
    oracleCalls := s.oracleCalls ++ [package_name] }

/-- The issuing of the `get_dependencies` call at line 133. -/
def markRegistry (package_name : String) (s : St) : St :=
  { s with registryCalls := s.registryCalls ++ [package_name] }

/-- Line 130: `apt_packages.add(f"python3-{package_name}")` — the node's own
name with the fixed prefix, in its original case. -/
def addApt (package_name : String) (s : St) : St :=
  { s with apt_packages := insert ("python3-" ++ package_name) s.apt_packages }

/-- Lines 136 and 144: `pip_packages.add((package_name, None))`. -/
def addPip (package_name : String) (s : St) : St :=
  { s with pip_packages := insert (package_name, none) s.pip_packages }

/-- Lines 143-144: add the bare pair to pip unless `package_name` itself is
a member of `apt_packages` (whose elements all carry the `python3-`
prefix). -/
def finishPip (package_name : String) (s : St) : St :=
  if package_name ∈ s.apt_packages then s else addPip package_name s

/-- The dependency loop (lines 139-141): fold over the returned pairs,
recursing on the base name when `include_dev or not is_dev_dependency(...)`
lets it through.  `f` is the recursive call at the remaining fuel. -/
def foldDeps (include_dev : Bool) (f : String → St → St) :
    List (String × Option String) → St → St
  | [], s => s
  | d :: rest, s =>
    foldDeps include_dev f rest
      (if include_dev || !is_dev_dependency d.1 then f d.1 s else s)

/-- `install_dependencies_recursive` (lines 109-144).  Source order:
return if already processed (120); insert into `processed` (123) and log the
visit (126); probe apt (129) and on a truthy result add
`"python3-" + package_name` and return (130-131); otherwise fetch the
dependency list (133); on `None` add `(package_name, None)` to pip and
return (135-137); otherwise loop over the pairs (139-141); finally add
`(package_name, None)` to pip unless `package_name` itself is a member of
`apt_packages` (143-144).  The extras component of a pair is never used.
Fuel exhaustion returns the state unchanged. -/
def install_dependencies_recursive (env : Env) (include_dev : Bool) :
    Nat → String → List String → St → St
  | 0, _, _, s => s
  | fuel + 1, package_name, path, s =>
    if package_name ∈ s.processed then s
    else if pyTruthyStr (env.oracle package_name) then
      addApt package_name (visitMark package_name s)
    else
      match env.fetch package_name with
      | none => addPip package_name (markRegistry package_name (visitMark package_name s))
      | some dependencies =>
        finishPip package_name
          (foldDeps include_dev
            (fun nm st =>
              install_dependencies_recursive env include_dev fuel nm (path ++ [nm]) st)
            dependencies (markRegistry package_name (visitMark package_name s)))

/-- The empty shared state created in `__main__` (lines 189-191). -/
def emptySt : St := ⟨∅, ∅, ∅, [], [], []⟩

/-- A top-level resolution run (line 196): fresh state, path seeded with the
root (line 118). -/
def runResolve (env : Env) (include_dev : Bool) (fuel : Nat)
    (package_name : String) : St :=
  install_dependencies_recursive env include_dev fuel package_name [package_name] emptySt

/-- Rendering of one pip target in `__main__` (lines 214-218): bare name
when extras is `None` (or empty, hence falsy), bracketed otherwise. -/
def pipInstallString (entry : String × Option String) : String :=
  match entry.2 with
  | some extras => if extras.data.isEmpty then entry.1 else entry.1 ++ "[" ++ extras ++ "]"
  | none => entry.1

/-! ## Derived notions used by the claims -/

/-- Well-formedness of the call logs: each log lists distinct names, all of
them already processed.  Holds for the empty state and is preserved by the
walk; its `Nodup` components are the at-most-once-per-name guarantees. -/
def LogOk (s : St) : Prop :=
  s.visits.Nodup ∧ s.oracleCalls.Nodup ∧ s.registryCalls.Nodup ∧
    (∀ x ∈ s.visits, x ∈ s.processed) ∧ (∀ x ∈ s.oracleCalls, x ∈ s.processed) ∧
    (∀ x ∈ s.registryCalls, x ∈ s.processed)

/-- An unconditional fold over dependency pairs, used to state which
dependencies the guarded loop actually recurses into. -/
def plainFoldDeps (f : String → St → St) : List (String × Option String) → St → St
  | [], s => s
  | d :: rest, s => plainFoldDeps f rest (f d.1 s)

/-- Whether a package name itself carries the prefix the resolver prepends
to apt entries.  The line-143 guard compares the bare node name against the
prefixed apt entries, so only such names can make the comparison fire. -/
def hasPy3Prefix (n : String) : Bool :=
  "python3-".data.isPrefixOf n.data

/-- Every AptTarget entry is the `python3-`-prefixed name of a visited
node. -/
def AptShaped (s : St) : Prop :=
  ∀ a ∈ s.apt_packages, ∃ k, k ∈ s.processed ∧ a = "python3-" ++ k

/-- Every PipTarget pair is bare, names a visited node, and its name does
not carry the apt prefix. -/
def PipShaped (s : St) : Prop :=
  ∀ p ∈ s.pip_packages, p.2 = none ∧ p.1 ∈ s.processed ∧ hasPy3Prefix p.1 = false

/-- Node `n` is classified into exactly one of the two target sets: its apt
entry is present and its pip pair absent, or the other way around. -/
def ExactlyOne (s : St) (n : String) : Prop :=
  (("python3-" ++ n) ∈ s.apt_packages ∧ (n, (none : Option String)) ∉ s.pip_packages)
  ∨ ((n, (none : Option String)) ∈ s.pip_packages ∧ ("python3-" ++ n) ∉ s.apt_packages)

/-- How one resolver call relates its final state to its starting state:
everything grows, every new apt entry is tagged with a newly visited node,
every new pip pair names a newly visited node, and every newly visited node
ends up classified into exactly one target set. -/
def StepRel (s s2 : St) : Prop :=
  s.processed ⊆ s2.processed ∧ s.apt_packages ⊆ s2.apt_packages ∧
    s.pip_packages ⊆ s2.pip_packages ∧
    (∀ a ∈ s2.apt_packages, a ∈ s.apt_packages ∨
      ∃ k, a = "python3-" ++ k ∧ k ∈ s2.processed ∧ k ∉ s.processed) ∧
    (∀ p ∈ s2.pip_packages, p ∈ s.pip_packages ∨ (p.1 ∈ s2.processed ∧ p.1 ∉ s.processed)) ∧
    (∀ n, n ∈ s2.processed → n ∉ s.processed → ExactlyOne s2 n)

/-! ## Concrete environments for the individual claims -/

/-- Claim C1 scenario: `apt-cache show python3-omega` succeeds and reports
canonical name `libomega-dev`. -/
def probeC1 : String → Option CmdResult :=
  fun k =>
    if k = "python3-omega" then some ⟨0, "Package: libomega-dev\nVersion: 1.0\n"⟩
    else none

/-- Claim C1 environment: oracle built from `apt_package_exists` over
`probeC1`; the registry is never reached. -/
def envC1 : Env := ⟨apt_package_exists probeC1, fun _ => none⟩

/-- Claim C2 registry: root `alpha` declares a plain dependency `beta` and a
spec whose environment marker carries the word "test". -/
def fetchC2 : String → Option (List (String × Option String)) :=
  fun n =>
    if n = "alpha" then some (cleanDeps ["beta", "gamma[extra]; extra == \x27test\x27"])
    else if n = "beta" then some []
    else if n = "gamma" then some []
    else none

/-- Claim C2 environment: no apt package exists anywhere. -/
def envC2 : Env := ⟨apt_package_exists (fun _ => none), fetchC2⟩

/-- Claim C3 probe: only the candidate `python3-foo` exists in apt. -/
def probeC3 : String → Option CmdResult :=
  fun k => if k = "python3-foo" then some ⟨0, "Package: python3-foo\n"⟩ else none

/-- Claim C3 registry: the root depends on a package literally named
`python3-foo` (no apt candidate `python3-python3-foo` exists) and on `foo`
(whose apt candidate exists). -/
def fetchC3 : String → Option (List (String × Option String)) :=
  fun n =>
    if n = "r" then some [("python3-foo", none), ("foo", none)]
    else if n = "python3-foo" then some []
    else none

/-- Claim C3 environment. -/
def envC3 : Env := ⟨apt_package_exists probeC3, fetchC3⟩

/-- Claim C4 environment: every oracle probe reports existence. -/
def envC4 : Env := ⟨fun _ => some "python3-thing", fun _ => none⟩

/-- Claim C5 environment: no oracle hit and every registry query fails. -/
def envC5 : Env := ⟨fun _ => none, fun _ => none⟩

/-- Claim C8 registry: a two-node dependency cycle `a ↔ b`. -/
def fetchC8 : String → Option (List (String × Option String)) :=
  fun n =>
    if n = "a" then some [("b", none)]
    else if n = "b" then some [("a", none)]
    else none

/-- Claim C8 environment. -/
def envC8 : Env := ⟨fun _ => none, fetchC8⟩

/-- Claim C9 registry: one plain edge, everything else a leaf. -/
def fetchC9 : String → Option (List (String × Option String)) :=
  fun n => if n = "a" then some [("b", none)] else some []

/-- Claim C9 environment. -/
def envC9 : Env := ⟨fun _ => none, fetchC9⟩

/-- Claim C10 registry: the root depends on `Foo` and `foo`, names that
differ only in letter case. -/
def fetchC10 : String → Option (List (String × Option String)) :=
  fun n =>
    if n = "r" then some [("Foo", none), ("foo", none)]
    else if n = "Foo" then some []
    else if n = "foo" then some []
    else none

/-- Claim C10 environment: no apt candidate exists, so every node also
issues a registry query. -/
def envC10 : Env := ⟨apt_package_exists (fun _ => none), fetchC10⟩

/-! ## Helper lemmas -/

/-- Unfolding of one step of the walk at positive fuel. -/
theorem resolve_succ_def (env : Env) (include_dev : Bool) (fuel : Nat)
    (package_name : String) (path : List String) (s : St) :
    install_dependencies_recursive env include_dev (fuel + 1) package_name path s =
      if package_name ∈ s.processed then s
      else if pyTruthyStr (env.oracle package_name) then
        addApt package_name (visitMark package_name s)
      else
        match env.fetch package_name with
        | none => addPip package_name (markRegistry package_name (visitMark package_name s))
        | some dependencies =>
          finishPip package_name
            (foldDeps include_dev
              (fun nm st =>
                install_dependencies_recursive env include_dev fuel nm (path ++ [nm]) st)
              dependencies (markRegistry package_name (visitMark package_name s))) := rfl

/-- A state predicate preserved by the recursive call is preserved by the
guarded dependency loop. -/
theorem foldDeps_preserve {P : St → Prop} {f : String → St → St} (include_dev : Bool)
    (hf : ∀ nm st, P st → P (f nm st)) :
    ∀ (l : List (String × Option String)) (s : St), P s → P (foldDeps include_dev f l s) := by
  intro l
  induction l with
  | nil => intro s h; exact h
  | cons d rest ih =>
    intro s h
    simp only [foldDeps]
    by_cases hg : (include_dev || !is_dev_dependency d.1) = true
    · rw [if_pos hg]
      exact ih _ (hf d.1 s h)
    · rw [if_neg hg]
      exact ih _ h

/-- The visited set only grows. -/
theorem processed_mono (env : Env) (include_dev : Bool) :
    ∀ (fuel : Nat) (pn : String) (path : List String) (s : St),
      s.processed ⊆ (install_dependencies_recursive env include_dev fuel pn path s).processed := by
  intro fuel
  induction fuel with
  | zero => intro pn path s; exact Finset.Subset.refl _
  | succ fuel ih =>
    intro pn path s
    rw [resolve_succ_def]
    by_cases hp : pn ∈ s.processed
    · rw [if_pos hp]
    · rw [if_neg hp]
      by_cases ho : pyTruthyStr (env.oracle pn) = true
      · rw [if_pos ho]
        intro x hx
        exact Finset.mem_insert_of_mem hx
      · rw [if_neg ho]
        cases hf : env.fetch pn with
        | none =>
          intro x hx
          exact Finset.mem_insert_of_mem hx
        | some deps =>
          have hfold : s.processed ⊆
              (foldDeps include_dev
                (fun nm st =>
                  install_dependencies_recursive env include_dev fuel nm (path ++ [nm]) st)
                deps (markRegistry pn (visitMark pn s))).processed := by
            apply foldDeps_preserve (P := fun st => s.processed ⊆ st.processed)
            · intro nm st hst
              exact hst.trans (ih nm (path ++ [nm]) st)
            · intro x hx
              exact Finset.mem_insert_of_mem hx
          by_cases ha :
              pn ∈ (foldDeps include_dev
                (fun nm st =>
                  install_dependencies_recursive env include_dev fuel nm (path ++ [nm]) st)
                deps (markRegistry pn (visitMark pn s))).apt_packages
          · simpa [finishPip, ha] using hfold
          · simpa [finishPip, addPip, ha] using hfold

/-- After a positive-fuel call on `pn`, `pn` is in the visited set. -/
theorem mem_processed_self (env : Env) (include_dev : Bool) (fuel : Nat) (pn : String)
    (path : List String) (s : St) :
    pn ∈ (install_dependencies_recursive env include_dev (fuel + 1) pn path s).processed := by
  rw [resolve_succ_def]
  by_cases hp : pn ∈ s.processed
  · rw [if_pos hp]; exact hp
  · rw [if_neg hp]
    by_cases ho : pyTruthyStr (env.oracle pn) = true
    · rw [if_pos ho]
      exact Finset.mem_insert_self _ _
    · rw [if_neg ho]
      cases hf : env.fetch pn with
      | none => exact Finset.mem_insert_self _ _
      | some deps =>
        have hfold : pn ∈
            (foldDeps include_dev
              (fun nm st =>
                install_dependencies_recursive env include_dev fuel nm (path ++ [nm]) st)
              deps (markRegistry pn (visitMark pn s))).processed := by
          apply foldDeps_preserve (P := fun st => pn ∈ st.processed)
          · intro nm st hst
            exact (processed_mono env include_dev fuel nm (path ++ [nm]) st) hst
          · exact Finset.mem_insert_self _ _
        by_cases ha :
            pn ∈ (foldDeps include_dev
              (fun nm st =>
                install_dependencies_recursive env include_dev fuel nm (path ++ [nm]) st)
              deps (markRegistry pn (visitMark pn s))).apt_packages
        · simpa [finishPip, ha] using hfold
        · simpa [finishPip, addPip, ha] using hfold

/-- Appending a fresh element keeps a list duplicate-free. -/
theorem nodup_append_singleton {l : List String} {a : String} (h : l.Nodup) (ha : a ∉ l) :
    (l ++ [a]).Nodup := by
  simp [List.nodup_append, h, ha]

/-- The visit/oracle marking preserves log well-formedness when the name is
fresh. -/
theorem logOk_visitMark {pn : String} {s : St} (hp : pn ∉ s.processed) (h : LogOk s) :
    LogOk (visitMark pn s) := by
  obtain ⟨h1, h2, h3, h4, h5, h6⟩ := h
  refine ⟨nodup_append_singleton h1 (fun hx => hp (h4 _ hx)),
          nodup_append_singleton h2 (fun hx => hp (h5 _ hx)), h3, ?_, ?_, ?_⟩
  · intro x hx
    have hx2 : x ∈ s.visits ∨ x = pn := by simpa [visitMark] using hx
    rcases hx2 with hx' | rfl
    · exact Finset.mem_insert_of_mem (h4 x hx')
    · exact Finset.mem_insert_self _ _
  · intro x hx
    have hx2 : x ∈ s.oracleCalls ∨ x = pn := by simpa [visitMark] using hx
    rcases hx2 with hx' | rfl
    · exact Finset.mem_insert_of_mem (h5 x hx')
    · exact Finset.mem_insert_self _ _
  · intro x hx
    exact Finset.mem_insert_of_mem (h6 x hx)

/-- The combined visit/oracle/registry marking preserves log
well-formedness when the name is fresh. -/
theorem logOk_markRegistry {pn : String} {s : St} (hp : pn ∉ s.processed) (h : LogOk s) :
    LogOk (markRegistry pn (visitMark pn s)) := by
  obtain ⟨h1, h2, h3, h4, h5, h6⟩ := logOk_visitMark hp h
  refine ⟨h1, h2, ?_, h4, h5, ?_⟩
  · exact nodup_append_singleton h3
      (fun hx => hp ((h.2.2.2.2.2 _ hx)))
  · intro x hx
    have hx2 : x ∈ s.registryCalls ∨ x = pn := by simpa [markRegistry, visitMark] using hx
    rcases hx2 with hx' | rfl
    · exact h6 x (by simpa [visitMark] using hx')
    · exact Finset.mem_insert_self _ _

/-- `finishPip` touches neither the logs nor the visited set. -/
theorem logOk_finishPip (pn : String) (s : St) (h : LogOk s) : LogOk (finishPip pn s) := by
  unfold finishPip
  by_cases ha : pn ∈ s.apt_packages
  · rw [if_pos ha]; exact h
  · rw [if_neg ha]; exact h

/-- The walk preserves log well-formedness: no name is ever probed, queried
or visit-logged twice. -/
theorem resolve_logOk (env : Env) (include_dev : Bool) :
    ∀ (fuel : Nat) (pn : String) (path : List String) (s : St),
      LogOk s → LogOk (install_dependencies_recursive env include_dev fuel pn path s) := by
  intro fuel
  induction fuel with
  | zero => intro pn path s h; exact h
  | succ fuel ih =>
    intro pn path s h
    rw [resolve_succ_def]
    by_cases hp : pn ∈ s.processed
    · rw [if_pos hp]; exact h
    · rw [if_neg hp]
      by_cases ho : pyTruthyStr (env.oracle pn) = true
      · rw [if_pos ho]
        exact logOk_visitMark hp h
      · rw [if_neg ho]
        cases hf : env.fetch pn with
        | none => exact logOk_markRegistry hp h
        | some deps =>
          apply logOk_finishPip
          apply foldDeps_preserve (P := LogOk) include_dev
          · intro nm st hst
            exact ih nm (path ++ [nm]) st hst
          · exact logOk_markRegistry hp h

/-- The empty starting state has well-formed logs. -/
theorem logOk_emptySt : LogOk emptySt := by
  refine ⟨List.nodup_nil, List.nodup_nil, List.nodup_nil, ?_, ?_, ?_⟩ <;>
    intro x hx <;> simp [emptySt] at hx

/-- Two folds whose step functions agree on states satisfying a preserved
predicate produce the same state. -/
theorem foldDeps_eq_on {P : St → Prop} {f g : String → St → St} (include_dev : Bool) :
    ∀ (l : List (String × Option String)) (s : St),
      (∀ d ∈ l, ∀ st, P st → f d.1 st = g d.1 st ∧ P (f d.1 st)) → P s →
      foldDeps include_dev f l s = foldDeps include_dev g l s := by
  intro l
  induction l with
  | nil => intro s _ _; rfl
  | cons d rest ih =>
    intro s hl hP
    simp only [foldDeps]
    by_cases hg : (include_dev || !is_dev_dependency d.1) = true
    · rw [if_pos hg, if_pos hg]
      obtain ⟨heq, hPf⟩ := hl d (List.mem_cons_self d rest) s hP
      rw [← heq]
      exact ih _ (fun d2 hd2 => hl d2 (List.mem_cons_of_mem _ hd2)) hPf
    · rw [if_neg hg, if_neg hg]
      exact ih _ (fun d2 hd2 => hl d2 (List.mem_cons_of_mem _ hd2)) hP

/-- Stabilization: once the fuel exceeds the number of names of the (finite)
graph universe still unvisited, one more unit of fuel changes nothing.  `U`
is any finite set of names closed under the registry results. -/
theorem resolve_stable (env : Env) (include_dev : Bool) (U : Finset String)
    (hcl : ∀ n deps, env.fetch n = some deps → ∀ d ∈ deps, d.1 ∈ U) :
    ∀ (fuel : Nat) (pn : String) (path : List String) (s : St), pn ∈ U →
      (U \ s.processed).card < fuel →
      install_dependencies_recursive env include_dev fuel pn path s
        = install_dependencies_recursive env include_dev (fuel + 1) pn path s := by
  intro fuel
  induction fuel with
  | zero => intro pn path s _ hcard; exact absurd hcard (Nat.not_lt_zero _)
  | succ fuel ih =>
    intro pn path s hU hcard
    rw [resolve_succ_def env include_dev fuel pn path s,
        resolve_succ_def env include_dev (fuel + 1) pn path s]
    by_cases hp : pn ∈ s.processed
    · rw [if_pos hp, if_pos hp]
    · rw [if_neg hp, if_neg hp]
      by_cases ho : pyTruthyStr (env.oracle pn) = true
      · rw [if_pos ho, if_pos ho]
      · rw [if_neg ho, if_neg ho]
        cases hf : env.fetch pn with
        | none => rfl
        | some deps =>
          have hmem : pn ∈ U \ s.processed := Finset.mem_sdiff.mpr ⟨hU, hp⟩
          have hcard1 : 1 ≤ (U \ s.processed).card := Finset.card_pos.mpr ⟨pn, hmem⟩
          have hfold :
              foldDeps include_dev
                (fun nm st =>
                  install_dependencies_recursive env include_dev fuel nm (path ++ [nm]) st)
                deps (markRegistry pn (visitMark pn s))
              = foldDeps include_dev
                (fun nm st =>
                  install_dependencies_recursive env include_dev (fuel + 1) nm (path ++ [nm]) st)
                deps (markRegistry pn (visitMark pn s)) := by
            apply foldDeps_eq_on (P := fun st => insert pn s.processed ⊆ st.processed)
            · intro d hd st hst
              have hdU : d.1 ∈ U := hcl pn deps hf d hd
              have hsub : U \ st.processed ⊆ (U \ s.processed).erase pn := by
                intro x hx
                obtain ⟨hxU, hxn⟩ := Finset.mem_sdiff.mp hx
                have hxni : x ∉ insert pn s.processed := fun hc => hxn (hst hc)
                refine Finset.mem_erase.mpr ⟨?_, Finset.mem_sdiff.mpr ⟨hxU, ?_⟩⟩
                · intro hxe
                  exact hxni (hxe ▸ Finset.mem_insert_self _ _)
                · intro hc
                  exact hxni (Finset.mem_insert_of_mem hc)
              have hcard2 : (U \ st.processed).card < fuel := by
                have h1 := Finset.card_le_card hsub
                have h2 := Finset.card_erase_of_mem hmem
                omega
              constructor
              · exact ih d.1 (path ++ [d.1]) st hdU hcard2
              · exact hst.trans (processed_mono env include_dev fuel d.1 (path ++ [d.1]) st)
            · intro x hx
              exact hx
          dsimp only
          rw [hfold]

/-- Stabilization extended to every larger fuel value. -/
theorem resolve_stable_ge (env : Env) (include_dev : Bool) (U : Finset String)
    (hcl : ∀ n deps, env.fetch n = some deps → ∀ d ∈ deps, d.1 ∈ U)
    (fuel : Nat) (pn : String) (path : List String) (s : St) (hU : pn ∈ U)
    (hcard : (U \ s.processed).card < fuel) :
    ∀ fuel2, fuel ≤ fuel2 →
      install_dependencies_recursive env include_dev fuel2 pn path s
        = install_dependencies_recursive env include_dev fuel pn path s := by
  intro fuel2 hle
  induction fuel2, hle using Nat.le_induction with
  | base => rfl
  | succ n hn ih =>
    have hstep := resolve_stable env include_dev U hcl n pn path s hU
      (lt_of_lt_of_le hcard hn)
    rw [← hstep, ih]

/-- Adding a bare pip pair keeps every pip extras component `None`. -/
theorem pip_none_addPip {pn : String} {s : St}
    (h : ∀ p ∈ s.pip_packages, p.2 = none) :
    ∀ p ∈ (addPip pn s).pip_packages, p.2 = none := by
  intro p hp
  rcases Finset.mem_insert.mp hp with heq | hmem
  · rw [heq]
  · exact h p hmem

/-- `finishPip` keeps every pip extras component `None`. -/
theorem pip_none_finishPip {pn : String} {s : St}
    (h : ∀ p ∈ s.pip_packages, p.2 = none) :
    ∀ p ∈ (finishPip pn s).pip_packages, p.2 = none := by
  unfold finishPip
  by_cases ha : pn ∈ s.apt_packages
  · rw [if_pos ha]; exact h
  · rw [if_neg ha]; exact pip_none_addPip h

/-- The guarded dependency loop is the unconditional fold over exactly the
pairs whose parsed base name survives `is_dev_dependency` (`include_dev`
false), respectively over all pairs (`include_dev` true). -/
theorem foldDeps_filter_eq (f : String → St → St) :
    ∀ (l : List (String × Option String)) (s : St),
      foldDeps false f l s = plainFoldDeps f (l.filter (fun d => !is_dev_dependency d.1)) s
      ∧ foldDeps true f l s = plainFoldDeps f l s := by
  intro l
  induction l with
  | nil => intro s; exact ⟨rfl, rfl⟩
  | cons d rest ih =>
    intro s
    constructor
    · cases hd : is_dev_dependency d.1 with
      | true =>
        simp only [foldDeps, List.filter_cons, hd, Bool.false_or, Bool.not_true,
          Bool.false_eq_true, if_false, reduceIte]
        exact (ih s).1
      | false =>
        simp only [foldDeps, List.filter_cons, hd, Bool.false_or, Bool.not_false,
          if_true, plainFoldDeps, reduceIte]
        exact (ih (f d.1 s)).1
    · simp only [foldDeps, Bool.true_or, if_true, plainFoldDeps, reduceIte]
      exact (ih (f d.1 s)).2

/-- Every pip pair the walk ever inserts has extras `None`. -/
theorem resolve_pip_extras_none (env : Env) (include_dev : Bool) :
    ∀ (fuel : Nat) (pn : String) (path : List String) (s : St),
      (∀ p ∈ s.pip_packages, p.2 = none) →
      ∀ p ∈ (install_dependencies_recursive env include_dev fuel pn path s).pip_packages,
        p.2 = none := by
  intro fuel
  induction fuel with
  | zero => intro pn path s h; exact h
  | succ fuel ih =>
    intro pn path s h
    rw [resolve_succ_def]
    by_cases hp : pn ∈ s.processed
    · rw [if_pos hp]; exact h
    · rw [if_neg hp]
      by_cases ho : pyTruthyStr (env.oracle pn) = true
      · rw [if_pos ho]; exact h
      · rw [if_neg ho]
        cases hf : env.fetch pn with
        | none => exact pip_none_addPip h
        | some deps =>
          apply pip_none_finishPip
          apply foldDeps_preserve (P := fun st => ∀ p ∈ st.pip_packages, p.2 = none)
          · intro nm st hst
            exact ih nm (path ++ [nm]) st hst
          · exact h

/-- The apt prefix is a prefix of every prefixed name. -/
theorem hasPy3Prefix_append (k : String) : hasPy3Prefix ("python3-" ++ k) = true := by
  unfold hasPy3Prefix
  rw [String.data_append]
  exact List.isPrefixOf_iff_prefix.mpr (List.prefix_append _ _)

/-- Prefixed names are equal only when the bare names are. -/
theorem py3_cancel {a b : String} (h : "python3-" ++ a = "python3-" ++ b) : a = b := by
  have hd := congrArg String.data h
  simp only [String.data_append] at hd
  exact String.ext (List.append_cancel_left hd)

/-- In a shaped state, an unprefixed name is never an AptTarget member —
this is why the line-143 guard can only fire for `python3-`-prefixed
package names. -/
theorem not_mem_apt_of_shaped {s : St} (h : AptShaped s) {n : String}
    (hn : hasPy3Prefix n = false) : n ∉ s.apt_packages := by
  intro hc
  obtain ⟨k, _, hk⟩ := h n hc
  simp [hk, hasPy3Prefix_append] at hn

/-- In a shaped state, the apt entry of an unvisited node is absent. -/
theorem apt_entry_not_mem_of_shaped {s : St} (h : AptShaped s) {n : String}
    (hn : n ∉ s.processed) : ("python3-" ++ n) ∉ s.apt_packages := by
  intro hc
  obtain ⟨k, hkproc, hk⟩ := h _ hc
  apply hn
  rw [py3_cancel hk]
  exact hkproc

/-- In a shaped state, the pip pair of an unvisited node is absent. -/
theorem pip_pair_not_mem_of_shaped {s : St} (h : PipShaped s) {n : String}
    (hn : n ∉ s.processed) : (n, (none : Option String)) ∉ s.pip_packages := by
  intro hc
  exact hn (h _ hc).2.1

/-- `StepRel` is reflexive. -/
theorem stepRel_refl (s : St) : StepRel s s := by
  refine ⟨Finset.Subset.refl _, Finset.Subset.refl _, Finset.Subset.refl _, ?_, ?_, ?_⟩
  · intro a ha; exact Or.inl ha
  · intro p hp; exact Or.inl hp
  · intro n h1 h2; exact absurd h1 h2

/-- A node already classified stays exactly-one-classified across a later
resolver call. -/
theorem exclusive_lift {st st2 : St} {n : String} (hn : n ∈ st.processed)
    (he : ExactlyOne st n) (hs : StepRel st st2) : ExactlyOne st2 n := by
  obtain ⟨hproc, hapt, hpip, hnewA, hnewP, _⟩ := hs
  rcases he with ⟨ha, hnp⟩ | ⟨hp, hna⟩
  · left
    refine ⟨hapt ha, ?_⟩
    intro hc
    rcases hnewP _ hc with hold | ⟨_, hnot⟩
    · exact hnp hold
    · exact hnot hn
  · right
    refine ⟨hpip hp, ?_⟩
    intro hc
    rcases hnewA _ hc with hold | ⟨k, hk, _, hknot⟩
    · exact hna hold
    · apply hknot
      rw [← py3_cancel hk]
      exact hn

/-- `foldDeps_preserve` with the step hypothesis restricted to the listed
dependencies. -/
theorem foldDeps_preserve_mem {P : St → Prop} {f : String → St → St} (include_dev : Bool) :
    ∀ (l : List (String × Option String)) (s : St),
      (∀ d ∈ l, ∀ st, P st → P (f d.1 st)) → P s → P (foldDeps include_dev f l s) := by
  intro l
  induction l with
  | nil => intro s _ h; exact h
  | cons d rest ih =>
    intro s hl h
    simp only [foldDeps]
    by_cases hg : (include_dev || !is_dev_dependency d.1) = true
    · rw [if_pos hg]
      exact ih _ (fun d2 hd2 => hl d2 (List.mem_cons_of_mem _ hd2))
        (hl d (List.mem_cons_self _ _) s h)
    · rw [if_neg hg]
      exact ih _ (fun d2 hd2 => hl d2 (List.mem_cons_of_mem _ hd2)) h

/-- The apt branch of one frame satisfies `StepRel` and preserves the
shapes. -/
theorem stepA {pn : String} {s : St} (hp : pn ∉ s.processed)
    (hA : AptShaped s) (hP : PipShaped s) :
    StepRel s (addApt pn (visitMark pn s)) ∧ AptShaped (addApt pn (visitMark pn s))
    ∧ PipShaped (addApt pn (visitMark pn s)) := by
  refine ⟨⟨Finset.subset_insert _ _, Finset.subset_insert _ _, Finset.Subset.refl _,
    ?_, ?_, ?_⟩, ?_, ?_⟩
  · intro a ha
    rcases Finset.mem_insert.mp ha with heq | hold
    · exact Or.inr ⟨pn, heq, Finset.mem_insert_self _ _, hp⟩
    · exact Or.inl hold
  · intro p hp2
    exact Or.inl hp2
  · intro n h1 h2
    have hn : n = pn := by
      rcases Finset.mem_insert.mp h1 with heq | hold
      · exact heq
      · exact absurd hold h2
    subst hn
    exact Or.inl ⟨Finset.mem_insert_self _ _, pip_pair_not_mem_of_shaped hP hp⟩
  · intro a ha
    rcases Finset.mem_insert.mp ha with heq | hold
    · exact ⟨pn, Finset.mem_insert_self _ _, heq⟩
    · obtain ⟨k, hk1, hk2⟩ := hA a hold
      exact ⟨k, Finset.mem_insert_of_mem hk1, hk2⟩
  · intro p hp2
    obtain ⟨h1, h2, h3⟩ := hP p hp2
    exact ⟨h1, Finset.mem_insert_of_mem h2, h3⟩

/-- The registry-failure branch of one frame satisfies `StepRel` and
preserves the shapes. -/
theorem stepB {pn : String} {s : St} (hp : pn ∉ s.processed)
    (hpre : hasPy3Prefix pn = false) (hA : AptShaped s) (hP : PipShaped s) :
    StepRel s (addPip pn (markRegistry pn (visitMark pn s)))
    ∧ AptShaped (addPip pn (markRegistry pn (visitMark pn s)))
    ∧ PipShaped (addPip pn (markRegistry pn (visitMark pn s))) := by
  refine ⟨⟨Finset.subset_insert _ _, Finset.Subset.refl _, Finset.subset_insert _ _,
    ?_, ?_, ?_⟩, ?_, ?_⟩
  · intro a ha
    exact Or.inl ha
  · intro p hp2
    rcases Finset.mem_insert.mp hp2 with heq | hold
    · subst heq
      exact Or.inr ⟨Finset.mem_insert_self _ _, hp⟩
    · exact Or.inl hold
  · intro n h1 h2
    have hn : n = pn := by
      rcases Finset.mem_insert.mp h1 with heq | hold
      · exact heq
      · exact absurd hold h2
    subst hn
    exact Or.inr ⟨Finset.mem_insert_self _ _, apt_entry_not_mem_of_shaped hA hp⟩
  · intro a ha
    obtain ⟨k, hk1, hk2⟩ := hA a ha
    exact ⟨k, Finset.mem_insert_of_mem hk1, hk2⟩
  · intro p hp2
    rcases Finset.mem_insert.mp hp2 with heq | hold
    · subst heq
      exact ⟨rfl, Finset.mem_insert_self _ _, hpre⟩
    · obtain ⟨h1, h2, h3⟩ := hP p hold
      exact ⟨h1, Finset.mem_insert_of_mem h2, h3⟩

/-- The frame specification: provided no walked name carries the
`python3-` prefix (root hypothesis here, registry results via `hreg`), one
resolver call grows the state, tags every new apt entry with a newly
visited node, keeps every pip pair bare and unprefixed, and classifies
every newly visited node into exactly one target set. -/
theorem resolve_step_spec (env : Env) (include_dev : Bool)
    (hreg : ∀ n deps, env.fetch n = some deps → ∀ d ∈ deps, hasPy3Prefix d.1 = false) :
    ∀ (fuel : Nat) (pn : String) (path : List String) (s : St),
      hasPy3Prefix pn = false → AptShaped s → PipShaped s →
      StepRel s (install_dependencies_recursive env include_dev fuel pn path s)
      ∧ AptShaped (install_dependencies_recursive env include_dev fuel pn path s)
      ∧ PipShaped (install_dependencies_recursive env include_dev fuel pn path s) := by
  intro fuel
  induction fuel with
  | zero => intro pn path s _ hA hP; exact ⟨stepRel_refl s, hA, hP⟩
  | succ fuel ih =>
    intro pn path s hpre hA hP
    rw [resolve_succ_def]
    by_cases hp : pn ∈ s.processed
    · rw [if_pos hp]
      exact ⟨stepRel_refl s, hA, hP⟩
    · rw [if_neg hp]
      by_cases ho : pyTruthyStr (env.oracle pn) = true
      · rw [if_pos ho]
        exact stepA hp hA hP
      · rw [if_neg ho]
        cases hf : env.fetch pn with
        | none => exact stepB hp hpre hA hP
        | some deps =>
          dsimp only
          have hQ3 := foldDeps_preserve_mem
            (P := fun st =>
              insert pn s.processed ⊆ st.processed
              ∧ s.apt_packages ⊆ st.apt_packages
              ∧ s.pip_packages ⊆ st.pip_packages
              ∧ AptShaped st ∧ PipShaped st
              ∧ (∀ a ∈ st.apt_packages, a ∈ s.apt_packages ∨
                  ∃ k, a = "python3-" ++ k ∧ k ∈ st.processed ∧ k ∉ insert pn s.processed)
              ∧ (∀ p ∈ st.pip_packages, p ∈ s.pip_packages ∨
                  (p.1 ∈ st.processed ∧ p.1 ∉ s.processed))
              ∧ (∀ n, n ∈ st.processed → n ∉ s.processed → n ≠ pn → ExactlyOne st n))
            (f := fun nm st =>
              install_dependencies_recursive env include_dev fuel nm (path ++ [nm]) st)
            include_dev deps (markRegistry pn (visitMark pn s)) ?hstep ?hbase
          case hbase =>
            refine ⟨Finset.Subset.refl _, Finset.Subset.refl _, Finset.Subset.refl _,
              ?_, ?_, ?_, ?_, ?_⟩
            · intro a ha
              obtain ⟨k, hk1, hk2⟩ := hA a ha
              exact ⟨k, Finset.mem_insert_of_mem hk1, hk2⟩
            · intro p hp2
              obtain ⟨h1, h2, h3⟩ := hP p hp2
              exact ⟨h1, Finset.mem_insert_of_mem h2, h3⟩
            · intro a ha
              exact Or.inl ha
            · intro p hp2
              exact Or.inl hp2
            · intro n h1 h2 h3
              rcases Finset.mem_insert.mp h1 with heq | hold
              · exact absurd heq h3
              · exact absurd hold h2
          case hstep =>
            intro d hd st hQ
            obtain ⟨hq1, hq2, hq3, hq4, hq5, hq6, hq7, hq8⟩ := hQ
            have hname : hasPy3Prefix d.1 = false := hreg pn deps hf d hd
            obtain ⟨hstep, hA2, hP2⟩ := ih d.1 (path ++ [d.1]) st hname hq4 hq5
            obtain ⟨hs1, hs2, hs3, hs4, hs5, hs6⟩ := hstep
            have hsp : s.processed ⊆ st.processed :=
              fun x hx => hq1 (Finset.mem_insert_of_mem hx)
            refine ⟨hq1.trans hs1, hq2.trans hs2, hq3.trans hs3, hA2, hP2, ?_, ?_, ?_⟩
            · intro a ha
              rcases hs4 a ha with hold | ⟨k, hk1, hk2, hk3⟩
              · rcases hq6 a hold with h | ⟨k, hk1, hk2, hk3⟩
                · exact Or.inl h
                · exact Or.inr ⟨k, hk1, hs1 hk2, hk3⟩
              · exact Or.inr ⟨k, hk1, hk2, fun hc => hk3 (hq1 hc)⟩
            · intro p hp2
              rcases hs5 p hp2 with hold | ⟨h1, h2⟩
              · rcases hq7 p hold with h | ⟨h1, h2⟩
                · exact Or.inl h
                · exact Or.inr ⟨hs1 h1, h2⟩
              · exact Or.inr ⟨h1, fun hc => h2 (hsp hc)⟩
            · intro n h1 h2 h3
              by_cases hmem : n ∈ st.processed
              · exact exclusive_lift hmem (hq8 n hmem h2 h3) ⟨hs1, hs2, hs3, hs4, hs5, hs6⟩
              · exact hs6 n h1 hmem
          obtain ⟨hq1, hq2, hq3, hq4, hq5, hq6, hq7, hq8⟩ := hQ3
          have hguard : pn ∉ (foldDeps include_dev
              (fun nm st =>
                install_dependencies_recursive env include_dev fuel nm (path ++ [nm]) st)
              deps (markRegistry pn (visitMark pn s))).apt_packages :=
            not_mem_apt_of_shaped hq4 hpre
          unfold finishPip
          rw [if_neg hguard]
          have hpnmem : pn ∈ (foldDeps include_dev
              (fun nm st =>
                install_dependencies_recursive env include_dev fuel nm (path ++ [nm]) st)
              deps (markRegistry pn (visitMark pn s))).processed :=
            hq1 (Finset.mem_insert_self _ _)
          have hannot : ("python3-" ++ pn) ∉ (foldDeps include_dev
              (fun nm st =>
                install_dependencies_recursive env include_dev fuel nm (path ++ [nm]) st)
              deps (markRegistry pn (visitMark pn s))).apt_packages := by
            intro hc
            rcases hq6 _ hc with hold | ⟨k, hk, _, hknot⟩
            · exact (apt_entry_not_mem_of_shaped hA hp) hold
            · apply hknot
              rw [← py3_cancel hk]
              exact Finset.mem_insert_self _ _
          refine ⟨⟨fun x hx => hq1 (Finset.mem_insert_of_mem hx), hq2,
            fun x hx => Finset.mem_insert_of_mem (hq3 hx), ?_, ?_, ?_⟩, ?_, ?_⟩
          · intro a ha
            rcases hq6 a ha with h | ⟨k, hk1, hk2, hk3⟩
            · exact Or.inl h
            · exact Or.inr ⟨k, hk1, hk2, fun hc => hk3 (Finset.mem_insert_of_mem hc)⟩
          · intro p hp2
            rcases Finset.mem_insert.mp hp2 with heq | hold
            · subst heq
              exact Or.inr ⟨hpnmem, hp⟩
            · rcases hq7 p hold with h | ⟨h1, h2⟩
              · exact Or.inl h
              · exact Or.inr ⟨h1, h2⟩
          · intro n h1 h2
            by_cases h3 : n = pn
            · subst h3
              exact Or.inr ⟨Finset.mem_insert_self _ _, hannot⟩
            · rcases hq8 n h1 h2 h3 with ⟨ha, hnp⟩ | ⟨hpp, hna⟩
              · left
                refine ⟨ha, ?_⟩
                intro hc
                rcases Finset.mem_insert.mp hc with heq | hmem
                · exact h3 (congrArg Prod.fst heq)
                · exact hnp hmem
              · right
                exact ⟨Finset.mem_insert_of_mem hpp, hna⟩
          · exact hq4
          · intro p hp2
            rcases Finset.mem_insert.mp hp2 with heq | hold
            · subst heq
              exact ⟨rfl, hpnmem, hpre⟩
            · exact hq5 p hold

/-! ## Claim C1 -/

/-- Claim C1 counterexample: with root `omega`, the oracle probe succeeds
and reports canonical name `libomega-dev` (extracted from the
`Package:` line), yet AptTarget afterwards is `{"python3-omega"}` and does
not contain `libomega-dev` — refuting the claim that the canonical name is
what gets added. -/
theorem C1_counterexample :
    apt_package_exists probeC1 "omega" = some "libomega-dev"
    ∧ (runResolve envC1 false 3 "omega").apt_packages = {"python3-omega"}
    ∧ "libomega-dev" ∉ (runResolve envC1 false 3 "omega").apt_packages := by
  refine ⟨by decide, by decide, by decide⟩

/-- Claim C1 (amended): for every package whose oracle probe is truthy, the
resolver adds the string `"python3-" + package_name` — the probed node's own
name with the fixed prefix, not the canonical name from the probe output —
to AptTarget, leaving PipTarget unchanged; in the `omega` scenario AptTarget
afterwards is exactly `{"python3-omega"}`. -/
theorem C1_amended :
    (∀ (env : Env) (include_dev : Bool) (fuel : Nat) (pn : String)
        (path : List String) (s : St), pn ∉ s.processed →
        pyTruthyStr (env.oracle pn) = true →
        (install_dependencies_recursive env include_dev (fuel + 1) pn path s).apt_packages
            = insert ("python3-" ++ pn) s.apt_packages
          ∧ (install_dependencies_recursive env include_dev (fuel + 1) pn path s).pip_packages
            = s.pip_packages)
    ∧ (runResolve envC1 false 3 "omega").apt_packages = {"python3-omega"} := by
  constructor
  · intro env include_dev fuel pn path s hp ho
    rw [resolve_succ_def, if_neg hp, if_pos ho]
    exact ⟨rfl, rfl⟩
  · decide

/-- Claim C1 witness: the amended statement applied to the concrete `omega`
environment. -/
theorem C1_amended_witness :
    (install_dependencies_recursive envC1 false 3 "omega" ["omega"] emptySt).apt_packages
        = insert ("python3-" ++ "omega") emptySt.apt_packages
    ∧ (install_dependencies_recursive envC1 false 3 "omega" ["omega"] emptySt).pip_packages
        = emptySt.pip_packages :=
  C1_amended.1 envC1 false 2 "omega" ["omega"] emptySt (by decide) (by decide)

/-! ## Claim C2 -/

/-- Claim C2 counterexample: with `includeDev = false`, the dependency spec
`gamma[extra]; extra == 'test'` — whose raw text contains the substring
"test", as the first conjunct records — is not skipped: `gamma` is visited
by the walk, refuting the claim that the heuristic is applied to the full
raw dependency string. -/
theorem C2_counterexample :
    is_dev_dependency "gamma[extra]; extra == \x27test\x27" = true
    ∧ "gamma" ∈ (runResolve envC2 false 5 "alpha").visits := by
  refine ⟨by decide, by decide⟩

/-- Claim C2 (amended): with `includeDev` false a returned dependency is
skipped if and only if its parsed base name — group 1 of the cleaning
regex, with extras and environment marker already stripped — matches the
dev heuristic; with `includeDev` true nothing is skipped.  In particular
`gamma[extra]; extra == 'test'` parses to base name `gamma`, which the
heuristic does not match, so `gamma` is walked when `includeDev` is
false. -/
theorem C2_amended :
    (∀ (f : String → St → St) (l : List (String × Option String)) (s : St),
        foldDeps false f l s
          = plainFoldDeps f (l.filter (fun d => !is_dev_dependency d.1)) s)
    ∧ (∀ (f : String → St → St) (l : List (String × Option String)) (s : St),
        foldDeps true f l s = plainFoldDeps f l s)
    ∧ parseDep "gamma[extra]; extra == \x27test\x27" = some ("gamma", some "extra")
    ∧ is_dev_dependency "gamma" = false
    ∧ "gamma" ∈ (runResolve envC2 false 5 "alpha").visits := by
  refine ⟨fun f l s => (foldDeps_filter_eq f l s).1,
    fun f l s => (foldDeps_filter_eq f l s).2, by decide, by decide, by decide⟩

/-! ## Claim C3 -/

/-- Claim C3 evaluation at the failing input: root `r` depends on a package
literally named `python3-foo` (not in apt, no registry deps) and on `foo`
(whose apt candidate exists, probed second).  After the run the name
`python3-foo` is in AptTarget (added for node `foo`) and the pair
`(python3-foo, None)` is in PipTarget (added for node `python3-foo`), so the
name intersection of the two target sets is nonempty — the partition the
claim states is violated. -/
theorem C3_partition_violation :
    "python3-foo" ∈ (runResolve envC3 false 5 "r").apt_packages
    ∧ ("python3-foo", (none : Option String)) ∈ (runResolve envC3 false 5 "r").pip_packages
    ∧ (runResolve envC3 false 5 "r").apt_packages = {"python3-foo"}
    ∧ (runResolve envC3 false 5 "r").pip_packages = {("python3-foo", none), ("r", none)}
    ∧ "python3-foo" ∈ (runResolve envC3 false 5 "r").processed := by
  refine ⟨by decide, by decide, by decide, by decide, by decide⟩

/-- Claim C3 (amended): provided no package name reachable by the walk —
the root and every registry-returned base name — itself carries the
`python3-` prefix, the partition holds: after a resolution run from the
empty state, every visited node is classified into exactly one of
AptTarget and PipTarget (its `python3-`-prefixed entry in AptTarget or its
bare pair in PipTarget, never both and never neither), and no PipTarget
name is an AptTarget member, so the name intersection of the two sets is
empty.  The restriction is exactly what the counterexample forces: the
line-143 guard compares the bare node name with the prefixed apt entries,
so only `python3-`-prefixed package names can disturb the partition. -/
theorem C3_amended (env : Env) (include_dev : Bool) (fuel : Nat) (root : String)
    (hroot : hasPy3Prefix root = false)
    (hreg : ∀ n deps, env.fetch n = some deps → ∀ d ∈ deps, hasPy3Prefix d.1 = false) :
    (∀ n ∈ (runResolve env include_dev fuel root).processed,
        ExactlyOne (runResolve env include_dev fuel root) n)
    ∧ (∀ p ∈ (runResolve env include_dev fuel root).pip_packages,
        p.1 ∉ (runResolve env include_dev fuel root).apt_packages) := by
  have hA : AptShaped emptySt := by
    intro a ha
    simp [emptySt] at ha
  have hP : PipShaped emptySt := by
    intro p hp
    simp [emptySt] at hp
  obtain ⟨hstep, hA2, hP2⟩ :=
    resolve_step_spec env include_dev hreg fuel root [root] emptySt hroot hA hP
  constructor
  · intro n hn
    exact hstep.2.2.2.2.2 n hn (by simp [emptySt])
  · intro p hp2 hc
    obtain ⟨k, _, hk⟩ := hA2 _ hc
    have hfalse := (hP2 p hp2).2.2
    simp [hk, hasPy3Prefix_append] at hfalse

/-- Claim C3 witness: the amended partition at a concrete two-node graph —
both visited nodes of the `envC9` run are exactly-one-classified. -/
theorem C3_amended_witness :
    ExactlyOne (runResolve envC9 false 3 "a") "a"
    ∧ ExactlyOne (runResolve envC9 false 3 "a") "b" := by
  have hreg : ∀ n deps, envC9.fetch n = some deps →
      ∀ d ∈ deps, hasPy3Prefix d.1 = false := by
    intro n deps h d hd
    by_cases h1 : n = "a"
    · subst h1
      have h2 : fetchC9 "a" = some deps := h
      have hd2 : deps = [("b", (none : Option String))] := by
        simpa [fetchC9] using h2.symm
      subst hd2
      have hd3 : d = ("b", (none : Option String)) := by simpa using hd
      subst hd3
      decide
    · have h2 : fetchC9 n = some deps := h
      have hd2 : deps = [] := by
        simpa [fetchC9, h1] using h2.symm
      subst hd2
      simp at hd
  have h := C3_amended envC9 false 3 "a" (by decide) hreg
  exact ⟨h.1 "a" (by decide), h.1 "b" (by decide)⟩

/-! ## Claim C4 -/

/-- Claim C4: when the oracle reports existence for an unvisited node, the
call returns having only marked the node visited, logged the one oracle
probe, and added the apt entry — no registry query is issued for the node
(`registryCalls` unchanged) and no dependency of the node is visited
(`processed` gains exactly the node itself): the subtree is never
expanded. -/
theorem C4_apt_short_circuit (env : Env) (include_dev : Bool) (fuel : Nat) (pn : String)
    (path : List String) (s : St) (hp : pn ∉ s.processed)
    (ho : pyTruthyStr (env.oracle pn) = true) :
    install_dependencies_recursive env include_dev (fuel + 1) pn path s =
      { s with
        processed := insert pn s.processed,
        visits := s.visits ++ [pn],
        oracleCalls := s.oracleCalls ++ [pn],
        apt_packages := insert ("python3-" ++ pn) s.apt_packages } := by
  rw [resolve_succ_def, if_neg hp, if_pos ho]
  rfl

/-- Claim C4 witness: the short-circuit at a concrete input. -/
theorem C4_witness :
    install_dependencies_recursive envC4 false 1 "pkg" ["pkg"] emptySt =
      { emptySt with
        processed := insert "pkg" emptySt.processed,
        visits := emptySt.visits ++ ["pkg"],
        oracleCalls := emptySt.oracleCalls ++ ["pkg"],
        apt_packages := insert ("python3-" ++ "pkg") emptySt.apt_packages } :=
  C4_apt_short_circuit envC4 false 0 "pkg" ["pkg"] emptySt (by decide) (by decide)

/-! ## Claim C5 -/

/-- Claim C5: when the oracle result is falsy and the registry query fails
(`get_dependencies` returns `None`) for an unvisited node, the call returns
normally having added exactly the bare pair `(node, None)` to PipTarget,
marked the node visited, and logged one oracle probe and one registry
query — `processed` gains only the node itself, so the node is a leaf of
the walk, and the totality of the returned state is the non-propagation of
the failure. -/
theorem C5_registry_failure_fallback (env : Env) (include_dev : Bool) (fuel : Nat)
    (pn : String) (path : List String) (s : St) (hp : pn ∉ s.processed)
    (ho : pyTruthyStr (env.oracle pn) = false) (hf : env.fetch pn = none) :
    install_dependencies_recursive env include_dev (fuel + 1) pn path s =
      { s with
        processed := insert pn s.processed,
        visits := s.visits ++ [pn],
        oracleCalls := s.oracleCalls ++ [pn],
        registryCalls := s.registryCalls ++ [pn],
        pip_packages := insert (pn, none) s.pip_packages } := by
  rw [resolve_succ_def, if_neg hp, if_neg (by simp [ho]), hf]
  rfl

/-- Claim C5 witness: the fallback at a concrete input. -/
theorem C5_witness :
    install_dependencies_recursive envC5 false 1 "zeta" ["zeta"] emptySt =
      { emptySt with
        processed := insert "zeta" emptySt.processed,
        visits := emptySt.visits ++ ["zeta"],
        oracleCalls := emptySt.oracleCalls ++ ["zeta"],
        registryCalls := emptySt.registryCalls ++ ["zeta"],
        pip_packages := insert ("zeta", none) emptySt.pip_packages } :=
  C5_registry_failure_fallback envC5 false 0 "zeta" ["zeta"] emptySt (by decide) rfl rfl

/-! ## Claim C6 -/

/-- Claim C6 counterexample: a package-not-found response — HTTP status 404
with the registry's JSON error body — makes `get_dependencies` return the
success value `some []`, not the failure signal `none`: the status code is
never examined, so not-found (and any non-2xx response with a truthy JSON
body) is indistinguishable from "zero dependencies". -/
theorem C6_counterexample :
    get_dependencies
        (HttpResult.response 404 (Except.ok (Json.obj [("message", Json.str "Not Found")])))
      = some [] := rfl

/-- Claim C6 (amended): `get_dependencies` returns `some []` whenever the
decoded payload is a truthy object whose `info.requires_dist` is absent or
null — including errorbody responses regardless of status code — and
returns the failure signal `none` for a network error, an undecodable body,
or a falsy decoded payload.  The status code plays no role in any branch. -/
theorem C6_amended :
    get_dependencies HttpResult.netErr = none
    ∧ (∀ status : Nat,
        get_dependencies (HttpResult.response status (Except.error ())) = none)
    ∧ (∀ status : Nat,
        get_dependencies (HttpResult.response status (Except.ok Json.null)) = none)
    ∧ (∀ status : Nat,
        get_dependencies (HttpResult.response status (Except.ok (Json.obj []))) = none)
    ∧ (∀ status : Nat,
        get_dependencies
            (HttpResult.response status (Except.ok (Json.obj [("info", Json.obj [])])))
          = some [])
    ∧ (∀ status : Nat,
        get_dependencies
            (HttpResult.response status
              (Except.ok (Json.obj [("info", Json.obj [("requires_dist", Json.null)])])))
          = some [])
    ∧ (∀ status : Nat,
        get_dependencies
            (HttpResult.response status (Except.ok (Json.obj [("message", Json.str "Not Found")])))
          = some []) :=
  ⟨rfl, fun _ => rfl, fun _ => rfl, fun _ => rfl, fun _ => rfl, fun _ => rfl, fun _ => rfl⟩

/-! ## Claim C7 -/

/-- Claim C7: resolving the same root a second time against the state left
by a first (positive-fuel) resolution is the identity — the whole state,
including the three call logs, is unchanged, so no additional oracle or
registry calls are issued and the target sets and visited set stay as they
were.  The fuel and diagnostic path of the second call are arbitrary. -/
theorem C7_idempotent_revisit (env : Env) (include_dev : Bool) (fuel1 fuel2 : Nat)
    (root : String) (path1 path2 : List String) (s : St) :
    install_dependencies_recursive env include_dev fuel2 root path2
        (install_dependencies_recursive env include_dev (fuel1 + 1) root path1 s)
      = install_dependencies_recursive env include_dev (fuel1 + 1) root path1 s := by
  have hmem := mem_processed_self env include_dev fuel1 root path1 s
  cases fuel2 with
  | zero => rfl
  | succ k => rw [resolve_succ_def, if_pos hmem]

/-! ## Claim C8 -/

/-- Claim C8: over any finite graph universe `U` (root included, closed
under registry results), once the fuel exceeds the size of `U` the walk has
stabilized — more fuel changes nothing, which is the fuel-embedding form of
termination — and in the final state the visit log, the oracle-probe log
and the registry-query log are each duplicate-free: every distinct name is
visited at most once and costs at most one probe and one query. -/
theorem C8_termination_at_most_once (env : Env) (include_dev : Bool) (U : Finset String)
    (root : String) (fuel : Nat) (hroot : root ∈ U)
    (hcl : ∀ n deps, env.fetch n = some deps → ∀ d ∈ deps, d.1 ∈ U)
    (hfuel : U.card < fuel) :
    (∀ fuel2, fuel ≤ fuel2 →
        runResolve env include_dev fuel2 root = runResolve env include_dev fuel root)
    ∧ (runResolve env include_dev fuel root).visits.Nodup
    ∧ (runResolve env include_dev fuel root).oracleCalls.Nodup
    ∧ (runResolve env include_dev fuel root).registryCalls.Nodup := by
  have hcard : (U \ emptySt.processed).card < fuel := by
    simpa [emptySt] using hfuel
  constructor
  · intro fuel2 hle
    exact resolve_stable_ge env include_dev U hcl fuel root [root] emptySt hroot hcard fuel2 hle
  · have h := resolve_logOk env include_dev fuel root [root] emptySt logOk_emptySt
    exact ⟨h.1, h.2.1, h.2.2.1⟩

/-- Claim C8 witness: the cyclic two-node graph `a ↔ b` with universe
`{a, b}` and fuel 3. -/
theorem C8_witness :
    (runResolve envC8 false 4 "a" = runResolve envC8 false 3 "a")
    ∧ (runResolve envC8 false 3 "a").visits.Nodup := by
  have hcl : ∀ n deps, envC8.fetch n = some deps →
      ∀ d ∈ deps, d.1 ∈ ({"a", "b"} : Finset String) := by
    intro n deps h d hd
    by_cases h1 : n = "a"
    · subst h1
      have h2 : fetchC8 "a" = some deps := h
      have hd2 : deps = [("b", (none : Option String))] := by
        simpa [fetchC8] using h2.symm
      subst hd2
      have hd3 : d = ("b", (none : Option String)) := by simpa using hd
      subst hd3
      decide
    · by_cases h2 : n = "b"
      · subst h2
        have h3 : fetchC8 "b" = some deps := h
        have hd2 : deps = [("a", (none : Option String))] := by
          simpa [fetchC8] using h3.symm
        subst hd2
        have hd3 : d = ("a", (none : Option String)) := by simpa using hd
        subst hd3
        decide
      · exfalso
        have h3 : fetchC8 n = some deps := h
        simp [fetchC8, h1, h2] at h3
  have h := C8_termination_at_most_once envC8 false {"a", "b"} "a" 3 (by decide) hcl (by decide)
  exact ⟨h.1 4 (by decide), h.2.1⟩

/-! ## Claim C9 -/

/-- Claim C9: every pair the walk inserts into PipTarget carries extras
`None` (for every environment, fuel and starting state whose pip set
already satisfies this, in particular the empty one), and the `__main__`
rendering of such a pair is the bare package name — the bracketed
`name[extras]` branch is never exercised by pairs the walk produces. -/
theorem C9_pip_always_bare :
    (∀ (env : Env) (include_dev : Bool) (fuel : Nat) (pn : String)
        (path : List String) (s : St),
        (∀ p ∈ s.pip_packages, p.2 = none) →
        ∀ p ∈ (install_dependencies_recursive env include_dev fuel pn path s).pip_packages,
          p.2 = none)
    ∧ ∀ p : String × Option String, p.2 = none → pipInstallString p = p.1 := by
  constructor
  · exact fun env include_dev => resolve_pip_extras_none env include_dev
  · intro p hp
    obtain ⟨a, b⟩ := p
    dsimp at hp
    subst hp
    rfl

/-- Claim C9 witness: in the concrete run the pair for `b` is in PipTarget,
its extras component is `None` by the theorem, and it renders bare. -/
theorem C9_witness :
    ("b", (none : Option String)) ∈
        (install_dependencies_recursive envC9 false 3 "a" ["a"] emptySt).pip_packages
    ∧ ("b", (none : Option String)).2 = none
    ∧ pipInstallString ("b", none) = "b" :=
  ⟨by decide,
   C9_pip_always_bare.1 envC9 false 3 "a" ["a"] emptySt (by decide) ("b", none) (by decide),
   C9_pip_always_bare.2 ("b", none) rfl⟩

/-! ## Claim C10 -/

/-- Claim C10: node identity in the walk is case-sensitive while the oracle
probe is not — any two names with the same lowercasing probe the same apt
candidate, and in the concrete run the case variants `Foo` and `foo` are
distinct nodes: both enter the visited set and each triggers its own oracle
probe and registry query. -/
theorem C10_case_sensitive_identity :
    (∀ a b : String, pyLower a = pyLower b → apt_probe_candidate a = apt_probe_candidate b)
    ∧ apt_probe_candidate "Foo" = "python3-foo"
    ∧ apt_probe_candidate "foo" = "python3-foo"
    ∧ (runResolve envC10 false 5 "r").visits = ["r", "Foo", "foo"]
    ∧ (runResolve envC10 false 5 "r").oracleCalls = ["r", "Foo", "foo"]
    ∧ (runResolve envC10 false 5 "r").registryCalls = ["r", "Foo", "foo"]
    ∧ "Foo" ∈ (runResolve envC10 false 5 "r").processed
    ∧ "foo" ∈ (runResolve envC10 false 5 "r").processed := by
  refine ⟨?_, by decide, by decide, by decide, by decide, by decide, by decide, by decide⟩
  intro a b h
  unfold apt_probe_candidate
  rw [h]

/-- Claim C10 witness: the probe-candidate identification applied to the
concrete case variants. -/
theorem C10_witness : apt_probe_candidate "Foo" = apt_probe_candidate "foo" :=
  C10_case_sensitive_identity.1 "Foo" "foo" (by decide)

end Aptpip
